import Mathlib

/-!
Shallow embedding of the CaimeoV1 dashboard (src/alpaca-ui/src/App.js), its
WebSocket client (src/unnamed/part_001, part_002), and — where the backend
server.py is absent from the repository snapshot — a model of the decision
loop taken from the specification.

JavaScript fetch results are modelled by `FetchResult`: a thrown fetch (or a
non-ok HTTP response, which `fetchJson` turns into a throw) is `failed`;
`ok` carries the parsed JSON payload.  Truthy/falsy field access is modelled
explicitly where the code branches on it.
-/

namespace Caimeo

/-- Outcome of an `await fetchJson(path)` call: `ok data` on success,
`failed` when the fetch throws (network error or non-ok HTTP status). -/
inductive FetchResult (α : Type) where
  | ok (data : α)
  | failed
deriving DecidableEq

/-- A JSON number field as the JS `||` operator sees it: `absent` covers a
missing/undefined/null field, `num q` a numeric value (0 is falsy). -/
inductive JNum where
  | absent
  | num (q : ℚ)
deriving DecidableEq

/-- A JSON string field as the JS `||` operator sees it: `absent` covers a
missing/undefined/null field, `str s` a string (the empty string is falsy). -/
inductive JStr where
  | absent
  | str (s : String)
deriving DecidableEq

/-- JS `v || d` for a number-valued field: falsy (absent or 0) yields `d`. -/
def orElseNum (v : JNum) (d : ℚ) : ℚ :=
  match v with
  | .absent => d
  | .num q => if q = 0 then d else q

/-- JS `v || d` for a string-valued field: falsy (absent or empty) yields `d`. -/
def orElseStr (v : JStr) (d : String) : String :=
  match v with
  | .absent => d
  | .str s => if s = "" then d else s

/-- The React `progress` state: {percent, eta, status}. -/
structure ProgressState where
  percent : ℚ
  eta : String
  status : String
deriving DecidableEq

/-- `fetchProgress` from App.js: on success it stores
`{percent: data.percent || 0, eta: data.eta || "N/A", status: data.status || "Idle"}`;
on a failed fetch it stores the defaults `{0, "N/A", "Idle"}`. -/
def fetchProgress (resp : FetchResult (JNum × JStr × JStr)) : ProgressState :=
  match resp with
  | .failed => ⟨0, "N/A", "Idle"⟩
  | .ok (p, e, s) => ⟨orElseNum p 0, orElseStr e "N/A", orElseStr s "Idle"⟩

/-- The response-mapping part of `handleControl` in App.js: the chain of
`if (data.status === ...)` tests applied to the JSON of a `POST /start` or
`POST /stop`, with `failed` for the catch branch (sets status "Error").
An unrecognized `data.status` leaves the dashboard status unchanged. -/
def applyControlResp (resp : FetchResult String) (status : String) : String :=
  match resp with
  | .failed => "Error"
  | .ok s =>
    if s = "started" then "Running"
    else if s = "stopped" then "Stopped"
    else if s = "already running" then "Running"
    else if s = "error" then "Stopped"
    else status

/-- `handleControl(action)` from App.js as a transition on the dashboard
status.  Returns the new status and whether a request was issued to the
backend.  The guard `if (action === "start" && !authenticated)` alerts and
returns before any fetch. -/
def handleControl (action : String) (authenticated : Bool) (resp : FetchResult String)
    (status : String) : String × Bool :=
  if action = "start" ∧ authenticated = false then (status, false)
  else (applyControlResp resp status, true)

/-- `fetchStatus` from App.js: `if (data.status) setStatus(data.status)` on
success (`ok none` models a falsy `data.status`, which leaves the state
unchanged), and `setStatus("Unknown")` in the catch branch. -/
def fetchStatus (resp : FetchResult (Option String)) (status : String) : String :=
  match resp with
  | .failed => "Unknown"
  | .ok none => status
  | .ok (some s) => s

/-- The loop run state from the spec: enumeration {Stopped, Running}. -/
inductive LoopState where
  | Stopped
  | Running
deriving DecidableEq

/-- Modelled from the spec: the backend DecisionLoop state machine
(server.py is not in the repository snapshot).  `loopsSpawned` counts how
many concurrent cycle loops have ever been spawned, to express that a start
on a running loop does not spawn a second one. -/
structure DecisionLoopSt where
  state : LoopState
  loopsSpawned : Nat
deriving DecidableEq

/-- Modelled from the spec: `start()` is idempotent — if already Running it
returns the "already running" signal rather than spawning a second loop;
from Stopped it transitions to Running, spawns the cycle loop, and returns
"started". -/
def startLoop (b : DecisionLoopSt) : DecisionLoopSt × String :=
  match b.state with
  | .Stopped => (⟨.Running, b.loopsSpawned + 1⟩, "started")
  | .Running => (b, "already running")

/-- One start interaction end to end: the dashboard guard of
`handleControl("start")`, and — only when a request is actually issued —
the spec-modelled backend `startLoop` processing it.  Returns the backend
state, the new dashboard status, and whether a request was issued. -/
def startRound (b : DecisionLoopSt) (authenticated : Bool) (uiStatus : String) :
    DecisionLoopSt × String × Bool :=
  if authenticated = false then (b, uiStatus, false)
  else
    let p := startLoop b
    (p.1, applyControlResp (.ok p.2) uiStatus, true)

/-- An event that can update the dashboard status state variable. -/
inductive UiEvent where
  | control (action : String) (authenticated : Bool) (resp : FetchResult String)
  | statusFetch (resp : FetchResult (Option String))

/-- One dashboard status transition, by the handler the event triggers. -/
def stepStatus (st : String) : UiEvent → String
  | .control a auth resp => (handleControl a auth resp st).1
  | .statusFetch resp => fetchStatus resp st

/-- The dashboard status after a sequence of events, from the initial
React state `useState("Stopped")`. -/
def runUi (events : List UiEvent) : String :=
  events.foldl stepStatus "Stopped"

/-- A status-endpoint value a well-behaved backend may return (the spec:
`status()` yields Stopped or Running). -/
def specLoopStatus (e : UiEvent) : Prop :=
  match e with
  | .statusFetch (.ok (some s)) => s = "Stopped" ∨ s = "Running"
  | _ => True

/-- A browser WebSocket object; only its url matters to the model. -/
structure Socket where
  url : String
deriving DecidableEq

/-- The `WebSocketClient` class state (src/unnamed/part_001): the
constructor sets `socket = null` and `_warnedDisabled = false`. -/
structure WebSocketClient where
  url : String
  enabled : Bool
  socket : Option Socket
  warnedDisabled : Bool
deriving DecidableEq

/-- The `WebSocketClient` constructor with explicit url and enabled flag
(handlers and logger do not affect the state modelled here). -/
def mkWebSocketClient (url : String) (enabled : Bool) : WebSocketClient :=
  ⟨url, enabled, none, false⟩

/-- Result of one `connect()` call: the updated client, the returned value
(`null` or the new socket), and whether the disabled notice was logged by
this call. -/
structure ConnectOut where
  client : WebSocketClient
  result : Option Socket
  warnedNow : Bool
deriving DecidableEq

/-- `WebSocketClient.connect` (src/unnamed/part_001).  When disabled it
logs the notice once (guarded by `_warnedDisabled`) and returns null
without touching `this.socket`.  When enabled, `env` is the outcome of
`new WebSocket(this.url)`: on success the socket is stored and returned,
on a thrown construction the method returns null with the state unchanged. -/
def connect (c : WebSocketClient) (env : Option Socket) : ConnectOut :=
  if c.enabled = false then
    if c.warnedDisabled = false then ⟨{ c with warnedDisabled := true }, none, true⟩
    else ⟨c, none, false⟩
  else
    match env with
    | some sock => ⟨{ c with socket := some sock }, some sock, false⟩
    | none => ⟨c, none, false⟩

/-- `n` successive `connect()` calls, the construction outcomes supplied by
the stream `envs`.  Returns the final client, the total number of
disabled-notice log lines, and the list of returned values. -/
def connects (c : WebSocketClient) (envs : Nat → Option Socket) :
    Nat → WebSocketClient × Nat × List (Option Socket)
  | 0 => (c, 0, [])
  | n + 1 =>
    let o := connect c (envs 0)
    let rest := connects o.client (fun i => envs (i + 1)) n
    (rest.1, (if o.warnedNow then 1 else 0) + rest.2.1, o.result :: rest.2.2)

/-- A JS value as `calcTradePnl` in App.js distinguishes them: `vnull` and
`vundef` are the explicitly tested null/undefined; `vnum q` is a defined
value whose `Number(...)` conversion is the finite number `q` (numbers,
numeric strings, booleans); `vnan` is a defined value whose conversion is
NaN (non-numeric strings, objects).  Infinities are not modelled. -/
inductive JVal where
  | vnull
  | vundef
  | vnum (q : ℚ)
  | vnan
deriving DecidableEq

/-- JS `Number(v)` on a `JVal`; `none` is NaN.  `Number(null)` is 0. -/
def toNumber : JVal → Option ℚ
  | .vnull => some 0
  | .vundef => none
  | .vnum q => some q
  | .vnan => none

/-- The numeric value rendered by JS `x.toFixed(2)`: the integer `n`
minimizing the distance of `n / 100` to `x`, ties to the larger `n`,
divided by 100. -/
def toFixed2 (q : ℚ) : ℚ :=
  ((Int.floor (q * 100 + 1 / 2) : ℤ) : ℚ) / 100

/-- An input on which `calcTradePnl` bails out: null, undefined, or a value
whose `Number(...)` conversion is NaN. -/
def badInput : JVal → Bool
  | .vnum _ => false
  | _ => true

/-- `calcTradePnl` from App.js: null when `soldPrice`, `avgPrice` or `qty`
is null/undefined, null when any `Number(...)` conversion is NaN, and
otherwise the string `((sold - avg) * qty).toFixed(2)` (modelled by the
numeric value it renders). -/
def calcTradePnl (soldPrice avgPrice qty : JVal) : Option ℚ :=
  if soldPrice = .vnull ∨ soldPrice = .vundef ∨ avgPrice = .vnull ∨ avgPrice = .vundef ∨
      qty = .vnull ∨ qty = .vundef then
    none
  else
    match toNumber soldPrice, toNumber avgPrice, toNumber qty with
    | some sold, some avg, some q => some (toFixed2 ((sold - avg) * q))
    | _, _, _ => none

/-- A discovery item as `fetchDiscovered` in App.js reads it: the symbol
and the `confidence` field.  `none` models an absent/null/undefined
confidence; `some s` a string value (the empty string is falsy in JS and
is handled explicitly where the code tests truthiness). -/
structure DiscItem where
  symbol : String
  confidence : Option String
deriving DecidableEq

/-- JS truthiness of the `confidence` field: absent and "" are falsy. -/
def confTruthy : Option String → Bool
  | none => false
  | some s => s != ""

/-- The filter predicate of `fetchDiscovered`:
`!s.confidence || s.confidence === "A" || s.confidence === "B" || s.confidence === "C"`. -/
def keepItem (s : DiscItem) : Bool :=
  !confTruthy s.confidence || s.confidence == some "A" || s.confidence == some "B" ||
    s.confidence == some "C"

/-- The sort key of `fetchDiscovered`: `order[s.confidence] || 0` with
`order = {A: 3, B: 2, C: 1, D: 0, F: -1}`.  A missing key yields
undefined and hence 0; the entry for D is 0, itself falsy, so D also
yields 0 (covered by the catch-all). -/
def rankOf (s : DiscItem) : Int :=
  match s.confidence with
  | some "A" => 3
  | some "B" => 2
  | some "C" => 1
  | some "F" => -1
  | _ => 0

/-- The comparator `(a, b) => (order[b.confidence] || 0) - (order[a.confidence] || 0)`
as the non-strict order it sorts by: `a` may stay before `b` iff
`rankOf b ≤ rankOf a` (descending rank). -/
def discGE (a b : DiscItem) : Prop :=
  rankOf b ≤ rankOf a

instance : DecidableRel discGE := fun a b =>
  inferInstanceAs (Decidable (rankOf b ≤ rankOf a))

instance : IsTotal DiscItem discGE :=
  ⟨fun a b => (Int.le_total (rankOf a) (rankOf b)).symm⟩

instance : IsTrans DiscItem discGE :=
  ⟨fun _ _ _ hab hbc => le_trans hbc hab⟩

/-- `fetchDiscovered` from App.js, as the list it stores in `discovered`:
`data.symbols` is kept only when it is an array (`none` models a
missing/non-array field), filtered by `keepItem`, then sorted with the
descending-rank comparator.  `Array.prototype.sort` is stable (ES2019) and
the comparator is a consistent total preorder, so the result is the stable
descending-rank sort, modelled by `List.insertionSort` on the non-strict
relation `discGE`. -/
def fetchDiscovered (symbols : Option (List DiscItem)) : List DiscItem :=
  match symbols with
  | none => []
  | some l => List.insertionSort discGE (l.filter keepItem)

/-- Confidence grades from the spec data model. -/
inductive Grade where
  | A
  | B
  | C
  | D
  | F
deriving DecidableEq

/-- Modelled from the spec: a candidate supplied by the CandidateFeed
(only the fields the decision loop consults for entry gating). -/
structure Candidate where
  symbol : String
  confidenceGrade : Grade
  lastPrice : ℚ
deriving DecidableEq

/-- Only grades A..C are eligible for entry; D/F are informational. -/
def eligibleGrade : Grade → Bool
  | .A => true
  | .B => true
  | .C => true
  | _ => false

/-- Modelled from the spec: the per-candidate entry loop of one cycle
(server.py is not in the repository snapshot).  For each eligible
candidate in ranked order, while day-trade and position capacity remains:
compute the size; zero size skips the candidate; otherwise submit the
entry order and increment `tradesUsed`.  Capacity is checked before each
submission; exhausted capacity ends the scan.  Returns the new
`tradesUsed`, the new position count, and the number of orders
submitted. -/
def runEntries (cap maxPos : Nat) (sizer : Candidate → Nat) :
    Nat → Nat → List Candidate → Nat × Nat × Nat
  | tradesUsed, posCount, [] => (tradesUsed, posCount, 0)
  | tradesUsed, posCount, c :: rest =>
    if tradesUsed < cap ∧ posCount < maxPos then
      if sizer c = 0 then runEntries cap maxPos sizer tradesUsed posCount rest
      else
        let r := runEntries cap maxPos sizer (tradesUsed + 1) (posCount + 1) rest
        (r.1, r.2.1, r.2.2 + 1)
    else (tradesUsed, posCount, 0)

/-- Modelled from the spec: one cycle of the DecisionLoop (server.py is
not in the repository snapshot).  An empty candidate list ends the cycle;
the cycle-level gates (day-trade cap, market window, position cap) are
evaluated once and any failure ends the cycle with no submissions;
otherwise the eligible candidates are scanned in order by `runEntries`. -/
def runCycle (cap maxPos : Nat) (windowOpen : Bool) (sizer : Candidate → Nat)
    (tradesUsed posCount : Nat) (cands : List Candidate) : Nat × Nat × Nat :=
  if cands.isEmpty then (tradesUsed, posCount, 0)
  else if tradesUsed < cap ∧ windowOpen = true ∧ posCount < maxPos then
    runEntries cap maxPos sizer tradesUsed posCount
      (cands.filter (fun c => eligibleGrade c.confidenceGrade))
  else (tradesUsed, posCount, 0)

/-! ## Theorems -/

/-- C3: an invocation of the start control while `authenticated` is false
is refused before any request: `handleControl("start")` returns without
issuing a fetch and leaves the dashboard status unchanged, and hence (in
the composed round) the decision loop state is untouched — the loop is
not started. -/
theorem C3_start_refused_without_auth (resp : FetchResult String) (status : String)
    (b : DecisionLoopSt) :
    handleControl "start" false resp status = (status, false) ∧
    startRound b false status = (b, status, false) := by
  constructor
  · simp [handleControl]
  · simp [startRound]

/-- C4: `start()` is idempotent — invoked on a Running loop it returns the
"already running" signal, changes nothing, and spawns no second loop; and
the dashboard control handler maps both "started" and "already running"
responses to the same Running status. -/
theorem C4_start_idempotent (b : DecisionLoopSt) (status : String)
    (h : b.state = .Running) :
    startLoop b = (b, "already running") ∧
    (startLoop b).1.loopsSpawned = b.loopsSpawned ∧
    applyControlResp (.ok "started") status = "Running" ∧
    applyControlResp (.ok "already running") status = "Running" := by
  refine ⟨?_, ?_, ?_, ?_⟩
  · simp [startLoop, h]
  · simp [startLoop, h]
  · simp [applyControlResp]
  · simp [applyControlResp]

theorem C4_start_idempotent_witness :
    (⟨.Running, 1⟩ : DecisionLoopSt).state = .Running ∧
    (startLoop ⟨.Running, 1⟩ = (⟨.Running, 1⟩, "already running") ∧
     (startLoop ⟨.Running, 1⟩).1.loopsSpawned = (⟨.Running, 1⟩ : DecisionLoopSt).loopsSpawned ∧
     applyControlResp (.ok "started") "Stopped" = "Running" ∧
     applyControlResp (.ok "already running") "Stopped" = "Running") :=
  ⟨rfl, C4_start_idempotent ⟨.Running, 1⟩ "Stopped" rfl⟩

/-- C5 counterexample: the claim says the status presented by the
dashboard is always exactly Stopped or Running, even after a failed status
fetch or a failed control request; but a failed status fetch sets the
status to "Unknown" and a failed control request sets it to "Error",
neither of which is Stopped or Running. -/
theorem C5_counterexample :
    fetchStatus .failed "Running" = "Unknown" ∧
    ¬("Unknown" = "Stopped" ∨ "Unknown" = "Running") ∧
    (handleControl "stop" true .failed "Running").1 = "Error" ∧
    ¬("Error" = "Stopped" ∨ "Error" = "Running") := by
  refine ⟨rfl, by decide, ?_, by decide⟩
  simp [handleControl, applyControlResp]

/-- C5 amended: over any sequence of control and status-fetch events in
which the backend status endpoint only ever reports Stopped or Running,
the dashboard status is one of exactly Stopped, Running, Unknown and
Error — Unknown arising from a failed status fetch and Error from a
failed start/stop control request. -/
theorem C5_amended_status_values (events : List UiEvent)
    (h : ∀ e ∈ events, specLoopStatus e) :
    runUi events = "Stopped" ∨ runUi events = "Running" ∨
    runUi events = "Unknown" ∨ runUi events = "Error" := by
  have step : ∀ (st : String) (e : UiEvent), specLoopStatus e →
      (st = "Stopped" ∨ st = "Running" ∨ st = "Unknown" ∨ st = "Error") →
      (stepStatus st e = "Stopped" ∨ stepStatus st e = "Running" ∨
       stepStatus st e = "Unknown" ∨ stepStatus st e = "Error") := by
    intro st e he hst
    cases e with
    | control a auth resp =>
      simp only [stepStatus, handleControl]
      split
      · exact hst
      · cases resp with
        | failed => simp [applyControlResp]
        | ok s =>
          simp only [applyControlResp]
          split_ifs <;> simp [hst]
    | statusFetch resp =>
      cases resp with
      | failed => simp [stepStatus, fetchStatus]
      | ok o =>
        cases o with
        | none => simpa [stepStatus, fetchStatus] using hst
        | some s =>
          simp only [specLoopStatus] at he
          simpa [stepStatus, fetchStatus] using he.imp id Or.inl
  have main : ∀ (es : List UiEvent) (st : String),
      (∀ e ∈ es, specLoopStatus e) →
      (st = "Stopped" ∨ st = "Running" ∨ st = "Unknown" ∨ st = "Error") →
      (es.foldl stepStatus st = "Stopped" ∨ es.foldl stepStatus st = "Running" ∨
       es.foldl stepStatus st = "Unknown" ∨ es.foldl stepStatus st = "Error") := by
    intro es
    induction es with
    | nil => intro st _ hst; simpa using hst
    | cons e rest ih =>
      intro st hes hst
      simp only [List.foldl_cons]
      exact ih _ (fun x hx => hes x (List.mem_cons.mpr (Or.inr hx)))
        (step st e (hes e (List.mem_cons_self e rest)) hst)
  exact main events "Stopped" h (Or.inl rfl)

theorem C5_amended_status_values_witness :
    (∀ e ∈ [UiEvent.statusFetch .failed], specLoopStatus e) ∧
    (runUi [UiEvent.statusFetch .failed] = "Stopped" ∨
     runUi [UiEvent.statusFetch .failed] = "Running" ∨
     runUi [UiEvent.statusFetch .failed] = "Unknown" ∨
     runUi [UiEvent.statusFetch .failed] = "Error") :=
  ⟨by simp [specLoopStatus], C5_amended_status_values _ (by simp [specLoopStatus])⟩

/-- C7 counterexample: the claim says a successful progress() response is
passed through unchanged with no substitution of defaults for values
present in the response; but a response whose eta field is present and
equal to the empty string is displayed as "N/A". -/
theorem C7_counterexample :
    (fetchProgress (.ok (.num 5, .str "", .str "ok"))).eta = "N/A" ∧
    ("N/A" : String) ≠ "" := by
  refine ⟨rfl, by decide⟩

/-- C7 amended: a successful progress() response is passed through field
by field except that falsy fields (absent, zero percent, empty strings)
are replaced by the defaults 0, "N/A" and "Idle"; truthy fields are
presented unchanged, and a failed fetch yields the all-default
descriptor. -/
theorem C7_amended_progress (p : ℚ) (e s : String)
    (hp : p ≠ 0) (he : e ≠ "") (hs : s ≠ "") :
    fetchProgress (.ok (.num p, .str e, .str s)) = ⟨p, e, s⟩ ∧
    fetchProgress (.ok (.absent, .absent, .absent)) = ⟨0, "N/A", "Idle"⟩ ∧
    fetchProgress .failed = ⟨0, "N/A", "Idle"⟩ := by
  refine ⟨?_, rfl, rfl⟩
  simp [fetchProgress, orElseNum, orElseStr, hp, he, hs]

theorem C7_amended_progress_witness :
    ((5 : ℚ) ≠ 0 ∧ ("2m" : String) ≠ "" ∧ ("Scanning" : String) ≠ "") ∧
    (fetchProgress (.ok (.num 5, .str "2m", .str "Scanning")) = ⟨5, "2m", "Scanning"⟩ ∧
     fetchProgress (.ok (.absent, .absent, .absent)) = ⟨0, "N/A", "Idle"⟩ ∧
     fetchProgress .failed = ⟨0, "N/A", "Idle"⟩) :=
  ⟨⟨by norm_num, by decide, by decide⟩,
   C7_amended_progress 5 "2m" "Scanning" (by norm_num) (by decide) (by decide)⟩

/-- C10: `calcTradePnl` returns null exactly when at least one of
soldPrice, avgPrice and qty is null, undefined, or NaN after `Number`
conversion; on three numeric inputs it returns `(sold - avg) * qty`
rendered to two decimal places. -/
theorem C10_calcTradePnl_spec (s a q : JVal) :
    (calcTradePnl s a q = none ↔ (badInput s || badInput a || badInput q) = true) ∧
    (∀ x y z : ℚ, calcTradePnl (.vnum x) (.vnum y) (.vnum z) =
      some (toFixed2 ((x - y) * z))) := by
  constructor
  · cases s <;> cases a <;> cases q <;> simp [calcTradePnl, toNumber, badInput]
  · intro x y z
    simp [calcTradePnl, toNumber]

/-- On a disabled client, any run of `connect()` calls leaves the socket
field untouched, returns null every time, and logs the disabled notice at
most once (never, if it was already logged). -/
lemma connects_disabled : ∀ (n : Nat) (c : WebSocketClient) (envs : Nat → Option Socket),
    c.enabled = false →
    (connects c envs n).1.socket = c.socket ∧
    (connects c envs n).2.1 ≤ (if c.warnedDisabled then 0 else 1) ∧
    ∀ x ∈ (connects c envs n).2.2, x = none := by
  intro n
  induction n with
  | zero =>
    intro c envs h
    simp [connects]
  | succ n ih =>
    intro c envs h
    by_cases hw : c.warnedDisabled
    · have hc : connect c (envs 0) = ⟨c, none, false⟩ := by
        simp [connect, h, hw]
      have := ih c (fun i => envs (i + 1)) h
      simp only [connects, hc, hw, if_true] at *
      refine ⟨this.1, by simpa using this.2.1, ?_⟩
      intro x hx
      rcases List.mem_cons.mp hx with rfl | hx
      · rfl
      · exact this.2.2 x hx
    · have hc : connect c (envs 0) = ⟨{ c with warnedDisabled := true }, none, true⟩ := by
        simp [connect, h, hw]
      have := ih { c with warnedDisabled := true } (fun i => envs (i + 1)) h
      simp only [if_true] at this
      simp only [connects, hc, hw, if_false]
      refine ⟨this.1, ?_, ?_⟩
      · simpa using this.2.1
      · intro x hx
        rcases List.mem_cons.mp hx with rfl | hx
        · rfl
        · exact this.2.2 x hx

/-- C8: a WebSocket client constructed with enabled = false never creates
a socket: every `connect()` call over any number of calls returns null,
the socket field stays null, and the disabled notice is logged at most
once. -/
theorem C8_connect_disabled (url : String) (envs : Nat → Option Socket) (n : Nat) :
    (connects (mkWebSocketClient url false) envs n).1.socket = none ∧
    (connects (mkWebSocketClient url false) envs n).2.1 ≤ 1 ∧
    ∀ x ∈ (connects (mkWebSocketClient url false) envs n).2.2, x = none := by
  have h := connects_disabled n (mkWebSocketClient url false) envs rfl
  refine ⟨h.1, ?_, h.2.2⟩
  have := h.2.1
  simpa [mkWebSocketClient] using this

theorem C8_connect_disabled_witness :
    (connects (mkWebSocketClient "ws://localhost:8000/ws" false) (fun _ => none) 3).1.socket
      = none ∧
    (connects (mkWebSocketClient "ws://localhost:8000/ws" false) (fun _ => none) 3).2.1 ≤ 1 ∧
    ∀ x ∈ (connects (mkWebSocketClient "ws://localhost:8000/ws" false) (fun _ => none) 3).2.2,
      x = none :=
  C8_connect_disabled "ws://localhost:8000/ws" (fun _ => none) 3

/-- Inserting an item into a list with `orderedInsert` on the
descending-rank order prepends it to the sublist of its own rank and
leaves the sublist of every rank unchanged otherwise: the elements it
passes over all have strictly greater rank. -/
lemma filter_rank_orderedInsert (k : Int) (x : DiscItem) :
    ∀ l : List DiscItem,
      (List.orderedInsert discGE x l).filter (fun s => rankOf s == k)
        = if rankOf x == k then x :: l.filter (fun s => rankOf s == k)
          else l.filter (fun s => rankOf s == k) := by
  intro l
  induction l with
  | nil =>
    cases h : (rankOf x == k) <;>
      simp [List.orderedInsert, List.filter_cons, h]
  | cons y ys ih =>
    by_cases hxy : discGE x y
    · rw [List.orderedInsert, if_pos hxy]
      cases h : (rankOf x == k) <;> simp [List.filter_cons, h]
    · rw [List.orderedInsert, if_neg hxy]
      cases hx : (rankOf x == k) with
      | false => simp [List.filter_cons, ih, hx]
      | true =>
        have hx1 : rankOf x = k := by simpa using hx
        cases hy : (rankOf y == k) with
        | false => simp [List.filter_cons, ih, hx, hy]
        | true =>
          exfalso
          have hy1 : rankOf y = k := by simpa using hy
          exact hxy (by simp [discGE, hx1, hy1])

/-- The stable sort of `fetchDiscovered` leaves the sublist of every rank
exactly as it was in the filtered feed. -/
lemma filter_rank_insertionSort (k : Int) :
    ∀ l : List DiscItem,
      (List.insertionSort discGE l).filter (fun s => rankOf s == k)
        = l.filter (fun s => rankOf s == k) := by
  intro l
  induction l with
  | nil => rfl
  | cons x xs ih =>
    rw [List.insertionSort, filter_rank_orderedInsert, ih]
    cases h : (rankOf x == k) <;> simp [List.filter_cons, h]

/-- C2 counterexample: the claim says every candidate retained by
`fetchDiscovered` has confidence grade A, B or C; but an item whose
confidence field is absent passes the filter and is retained. -/
theorem C2_counterexample :
    (⟨"XYZ", none⟩ : DiscItem) ∈ fetchDiscovered (some [⟨"XYZ", none⟩]) ∧
    ¬((⟨"XYZ", none⟩ : DiscItem).confidence = some "A" ∨
      (⟨"XYZ", none⟩ : DiscItem).confidence = some "B" ∨
      (⟨"XYZ", none⟩ : DiscItem).confidence = some "C") := by
  constructor
  · simp [fetchDiscovered, keepItem, confTruthy]
  · simp

/-- C2 amended: every candidate retained by `fetchDiscovered` either has
confidence grade A, B or C, or has a falsy (absent/empty) confidence
field; candidates graded D or F are never retained. -/
theorem C2_amended_eligible (symbols : Option (List DiscItem)) (s : DiscItem)
    (hs : s ∈ fetchDiscovered symbols) :
    (s.confidence = some "A" ∨ s.confidence = some "B" ∨ s.confidence = some "C" ∨
      confTruthy s.confidence = false) ∧
    s.confidence ≠ some "D" ∧ s.confidence ≠ some "F" := by
  cases symbols with
  | none => simp [fetchDiscovered] at hs
  | some l =>
    rw [show fetchDiscovered (some l) = List.insertionSort discGE (l.filter keepItem) from rfl,
      List.mem_insertionSort, List.mem_filter] at hs
    have hk := hs.2
    simp only [keepItem, Bool.or_eq_true, Bool.not_eq_true', beq_iff_eq] at hk
    have hk2 : s.confidence = some "A" ∨ s.confidence = some "B" ∨ s.confidence = some "C" ∨
        confTruthy s.confidence = false := by tauto
    refine ⟨hk2, ?_, ?_⟩
    · intro hD
      rcases hk2 with h | h | h | h <;> rw [hD] at h <;> simp [confTruthy] at h
    · intro hF
      rcases hk2 with h | h | h | h <;> rw [hF] at h <;> simp [confTruthy] at h

theorem C2_amended_eligible_witness :
    (⟨"AAPL", some "A"⟩ : DiscItem) ∈ fetchDiscovered (some [⟨"AAPL", some "A"⟩]) ∧
    (((⟨"AAPL", some "A"⟩ : DiscItem).confidence = some "A" ∨
      (⟨"AAPL", some "A"⟩ : DiscItem).confidence = some "B" ∨
      (⟨"AAPL", some "A"⟩ : DiscItem).confidence = some "C" ∨
      confTruthy (⟨"AAPL", some "A"⟩ : DiscItem).confidence = false) ∧
     (⟨"AAPL", some "A"⟩ : DiscItem).confidence ≠ some "D" ∧
     (⟨"AAPL", some "A"⟩ : DiscItem).confidence ≠ some "F") :=
  ⟨by simp [fetchDiscovered, keepItem, confTruthy],
   C2_amended_eligible (some [⟨"AAPL", some "A"⟩]) ⟨"AAPL", some "A"⟩
     (by simp [fetchDiscovered, keepItem, confTruthy])⟩

/-- C6: the displayed list is ordered by descending confidence rank
(A = 3 above B = 2 above C = 1 above ungraded = 0 above F = -1, D and F
never being retained), and within each rank the feed's original relative
order is preserved (the comparator-consistent stable sort). -/
theorem C6_sorted_stable (l : List DiscItem) :
    List.Sorted discGE (fetchDiscovered (some l)) ∧
    (∀ k : Int, (fetchDiscovered (some l)).filter (fun s => rankOf s == k)
      = (l.filter keepItem).filter (fun s => rankOf s == k)) ∧
    (∀ sym : String, rankOf ⟨sym, some "A"⟩ = 3 ∧ rankOf ⟨sym, some "B"⟩ = 2 ∧
      rankOf ⟨sym, some "C"⟩ = 1 ∧ rankOf ⟨sym, some "D"⟩ = 0 ∧
      rankOf ⟨sym, some "F"⟩ = -1 ∧ rankOf ⟨sym, none⟩ = 0) := by
  refine ⟨List.sorted_insertionSort discGE _, ?_, ?_⟩
  · intro k
    exact filter_rank_insertionSort k (l.filter keepItem)
  · intro sym
    exact ⟨rfl, rfl, rfl, rfl, rfl, rfl⟩

/-- C9: a discovery item with an absent or falsy confidence field passes
the eligibility filter and is retained; it carries rank 0 while grade C
carries rank 1, and in the sorted output no grade-C candidate appears
after it. -/
theorem C9_falsy_retained_below_C (l : List DiscItem) (s : DiscItem)
    (hmem : s ∈ l) (hfalsy : confTruthy s.confidence = false) :
    s ∈ fetchDiscovered (some l) ∧ rankOf s = 0 ∧
    (∀ sym : String, rankOf ⟨sym, some "C"⟩ = 1) ∧
    (∀ pre rest : List DiscItem, fetchDiscovered (some l) = pre ++ rest → s ∈ pre →
      ∀ c ∈ rest, c.confidence ≠ some "C") := by
  have hkeep : keepItem s = true := by
    simp [keepItem, hfalsy]
  have hrank : rankOf s = 0 := by
    rcases s with ⟨sym, conf⟩
    cases conf with
    | none => rfl
    | some str =>
      have : str = "" := by simpa [confTruthy] using hfalsy
      subst this
      rfl
  refine ⟨?_, hrank, fun _ => rfl, ?_⟩
  · rw [show fetchDiscovered (some l) = List.insertionSort discGE (l.filter keepItem) from rfl,
      List.mem_insertionSort, List.mem_filter]
    exact ⟨hmem, hkeep⟩
  · intro pre rest heq hpre c hc hCc
    have hsorted : List.Sorted discGE (fetchDiscovered (some l)) :=
      List.sorted_insertionSort discGE _
    rw [heq] at hsorted
    have hcross := (List.pairwise_append.mp hsorted).2.2
    have hge : discGE s c := hcross s hpre c hc
    have hrc : rankOf c = 1 := by
      rcases c with ⟨symc, confc⟩
      simp only at hCc
      rw [hCc]
      rfl
    rw [discGE, hrc, hrank] at hge
    exact absurd hge (by norm_num)

theorem C9_falsy_retained_below_C_witness :
    ((⟨"X", none⟩ : DiscItem) ∈ [(⟨"C9", some "C"⟩ : DiscItem), ⟨"X", none⟩] ∧
     confTruthy (⟨"X", none⟩ : DiscItem).confidence = false) ∧
    ((⟨"X", none⟩ : DiscItem) ∈
        fetchDiscovered (some [(⟨"C9", some "C"⟩ : DiscItem), ⟨"X", none⟩]) ∧
     rankOf ⟨"X", none⟩ = 0 ∧
     (∀ sym : String, rankOf ⟨sym, some "C"⟩ = 1) ∧
     (∀ pre rest : List DiscItem,
        fetchDiscovered (some [(⟨"C9", some "C"⟩ : DiscItem), ⟨"X", none⟩]) = pre ++ rest →
        (⟨"X", none⟩ : DiscItem) ∈ pre → ∀ c ∈ rest, c.confidence ≠ some "C")) :=
  ⟨⟨by simp, rfl⟩,
   C9_falsy_retained_below_C [⟨"C9", some "C"⟩, ⟨"X", none⟩] ⟨"X", none⟩ (by simp) rfl⟩

/-- The per-candidate entry scan keeps `tradesUsed` at or below the cap
whenever it starts at or below the cap, and increments it exactly once
per submitted order: the capacity guard precedes every submission. -/
lemma runEntries_cap (cap maxPos : Nat) (sizer : Candidate → Nat) :
    ∀ (cands : List Candidate) (t p : Nat), t ≤ cap →
      (runEntries cap maxPos sizer t p cands).1 ≤ cap ∧
      (runEntries cap maxPos sizer t p cands).1
        = t + (runEntries cap maxPos sizer t p cands).2.2 := by
  intro cands
  induction cands with
  | nil =>
    intro t p h
    simpa [runEntries] using h
  | cons c rest ih =>
    intro t p h
    rw [runEntries]
    by_cases hg : t < cap ∧ p < maxPos
    · rw [if_pos hg]
      by_cases hz : sizer c = 0
      · rw [if_pos hz]
        exact ih t p h
      · rw [if_neg hz]
        have h1 : t + 1 ≤ cap := hg.1
        have := ih (t + 1) (p + 1) h1
        refine ⟨this.1, ?_⟩
        simp only
        omega
    · rw [if_neg hg]
      exact ⟨h, by simp⟩

/-- C1: from any counter state satisfying the weekly invariant
`tradesUsed ≤ cap`, a cycle of the decision loop — even one presented with
more than `cap` eligible candidates — ends with `tradesUsed ≤ cap`; the
counter grows by exactly one per submitted order and the number of
submissions never exceeds the remaining capacity, i.e. an entry attempt
that would exceed the cap is refused before submission, never after. -/
theorem C1_weekly_trade_cap (cap maxPos : Nat) (windowOpen : Bool)
    (sizer : Candidate → Nat) (tradesUsed posCount : Nat) (cands : List Candidate)
    (h : tradesUsed ≤ cap) :
    (runCycle cap maxPos windowOpen sizer tradesUsed posCount cands).1 ≤ cap ∧
    (runCycle cap maxPos windowOpen sizer tradesUsed posCount cands).1
      = tradesUsed + (runCycle cap maxPos windowOpen sizer tradesUsed posCount cands).2.2 ∧
    (runCycle cap maxPos windowOpen sizer tradesUsed posCount cands).2.2
      ≤ cap - tradesUsed := by
  have main :
      (runCycle cap maxPos windowOpen sizer tradesUsed posCount cands).1 ≤ cap ∧
      (runCycle cap maxPos windowOpen sizer tradesUsed posCount cands).1
        = tradesUsed + (runCycle cap maxPos windowOpen sizer tradesUsed posCount cands).2.2 := by
    rw [runCycle]
    by_cases he : cands.isEmpty
    · rw [if_pos he]
      exact ⟨h, by simp⟩
    · rw [if_neg he]
      by_cases hg : tradesUsed < cap ∧ windowOpen = true ∧ posCount < maxPos
      · rw [if_pos hg]
        exact runEntries_cap cap maxPos sizer _ tradesUsed posCount h
      · rw [if_neg hg]
        exact ⟨h, by simp⟩
  exact ⟨main.1, main.2, by omega⟩

theorem C1_weekly_trade_cap_witness :
    (0 ≤ 2) ∧
    ((runCycle 2 3 true (fun _ => 1) 0 0
        [⟨"S1", .A, 10⟩, ⟨"S2", .A, 10⟩, ⟨"S3", .B, 10⟩, ⟨"S4", .C, 10⟩, ⟨"S5", .A, 10⟩]).1
        ≤ 2 ∧
     (runCycle 2 3 true (fun _ => 1) 0 0
        [⟨"S1", .A, 10⟩, ⟨"S2", .A, 10⟩, ⟨"S3", .B, 10⟩, ⟨"S4", .C, 10⟩, ⟨"S5", .A, 10⟩]).1
        = 0 + (runCycle 2 3 true (fun _ => 1) 0 0
            [⟨"S1", .A, 10⟩, ⟨"S2", .A, 10⟩, ⟨"S3", .B, 10⟩, ⟨"S4", .C, 10⟩,
              ⟨"S5", .A, 10⟩]).2.2 ∧
     (runCycle 2 3 true (fun _ => 1) 0 0
        [⟨"S1", .A, 10⟩, ⟨"S2", .A, 10⟩, ⟨"S3", .B, 10⟩, ⟨"S4", .C, 10⟩, ⟨"S5", .A, 10⟩]).2.2
        ≤ 2 - 0) :=
  ⟨by decide,
   C1_weekly_trade_cap 2 3 true (fun _ => 1) 0 0
     [⟨"S1", .A, 10⟩, ⟨"S2", .A, 10⟩, ⟨"S3", .B, 10⟩, ⟨"S4", .C, 10⟩, ⟨"S5", .A, 10⟩]
     (by decide)⟩

end Caimeo
